import Mathlib

/-!
Verification of the credential-masker masking engine (src/cmd/mask.go,
src/cmd/main.go, src/cmd/config.go).

Go strings and file contents are byte slices; we model them as `List Nat`
(each element one byte).  All string literals occurring in the program are
ASCII, so the helper `bts` (bytes of an ASCII text) maps each character to
its code point, which equals its single UTF-8 byte.

The masking engine of mask.go consists of:
  * `NewMasker`        — groups findings by rewritten file path,
  * `ParseFileType`    — classifies a file as binary / empty / text,
  * `RecreateFile`     — delete-then-create write-back,
  * `HandleBinary`     — empties an opaque file and writes a placeholder,
  * `HandleText`       — chunked span replacement of matched secrets.

Stateful parts (file system) are modelled by explicit state passing over
`FS := List Nat → Option (List Nat)` (path to content).  Fallible steps
return `Option`/`Except`; a Go runtime panic (slice bounds, index out of
range) is modelled as a dedicated `panic` outcome, distinct from an error
return value, because in mask.go no `recover` exists and a panic inside a
goroutine aborts the whole process.
-/

deriving instance DecidableEq for Except

namespace CredentialMasker

/-- Bytes of an ASCII string literal (every literal used by the program is
ASCII, so code points and UTF-8 bytes coincide). -/
def bts (s : String) : List Nat := s.toList.map Char.toNat

/-- Decides whether `pat` is an initial segment of `s` (byte-wise). -/
def leadsWith : List Nat → List Nat → Bool
  | [], _ => true
  | _ :: _, [] => false
  | p :: ps, b :: bs => (p == b) && leadsWith ps bs

/-- Decides whether `suf` is a final segment of `s` (byte-wise), as Go
`strings.HasSuffix`. -/
def endsWithL (s suf : List Nat) : Bool := leadsWith suf.reverse s.reverse

/-- Go `strings.TrimSuffix`: drops the final segment `suf` when present,
otherwise returns `s` unchanged. -/
def trimSuffix (s suf : List Nat) : List Nat :=
  if endsWithL s suf then s.take (s.length - suf.length) else s

/-- Fuel-indexed worker for `replaceAll`.  One unit of fuel is spent per
consumed byte, so fuel `s.length` always suffices; the fuel-exhausted
branch is unreachable under that call pattern. -/
def replaceAllFuel (pat rep : List Nat) : Nat → List Nat → List Nat
  | _, [] => []
  | 0, s => s
  | fuel + 1, b :: rest =>
    if leadsWith pat (b :: rest) then
      rep ++ replaceAllFuel pat rep fuel (List.drop (pat.length - 1) rest)
    else
      b :: replaceAllFuel pat rep fuel rest

/-- Go `strings.NewReplacer(pat, rep).Replace s` for a single pair with a
nonempty `pat` (equivalently `strings.Replace(s, pat, rep, -1)`): replaces
every leftmost non-overlapping occurrence of `pat` by `rep`, without
rescanning the replacement text.  The engine only ever calls the replacer
with `pat` the source directory (validated nonempty by config.go) or a
finding match; for an empty `pat` this model returns `s` unchanged. -/
def replaceAll (pat rep s : List Nat) : List Nat :=
  if pat = [] then s else replaceAllFuel pat rep s.length s

/-- Go `strings.Split(string(buf), "\n")` as called by HandleText
(mask.go line 225): the separator is the hard-coded one-byte LF sequence,
byte 10.  `strings.Split` of the empty string yields one empty field. -/
def splitNl : List Nat → List (List Nat)
  | [] => [[]]
  | 10 :: rest => [] :: splitNl rest
  | b :: rest =>
    match splitNl rest with
    | [] => [[b]]
    | l :: ls => (b :: l) :: ls

/-- Go `strings.Join(lines, "\n")` as called by RecreateFile
(mask.go line 197): lines are rejoined with the hard-coded one-byte LF
sequence, byte 10. -/
def joinNl : List (List Nat) → List Nat
  | [] => []
  | [x] => x
  | x :: y :: xs => x ++ 10 :: joinNl (y :: xs)

/-- Decides whether a byte is a UTF-8 continuation byte (0x80..0xBF). -/
def isCont (b : Nat) : Bool := 0x80 ≤ b && b ≤ 0xBF

/-- Go `utf8.Valid`: the byte list is a concatenation of valid UTF-8
encodings per RFC 3629 (no overlong forms, no surrogate code points, no
code point above U+10FFFF).  Branching follows the `first` and
`acceptRanges` tables of the Go `unicode/utf8` package. -/
def utf8Valid : List Nat → Bool
  | [] => true
  | b :: rest =>
    if b < 0x80 then utf8Valid rest
    else if b < 0xC2 then false
    else if b ≤ 0xDF then
      match rest with
      | c1 :: rest1 => isCont c1 && utf8Valid rest1
      | [] => false
    else if b ≤ 0xEF then
      match rest with
      | c1 :: c2 :: rest2 =>
        (if b = 0xE0 then 0xA0 ≤ c1 && c1 ≤ 0xBF
         else if b = 0xED then 0x80 ≤ c1 && c1 ≤ 0x9F
         else isCont c1) && isCont c2 && utf8Valid rest2
      | _ => false
    else if b ≤ 0xF4 then
      match rest with
      | c1 :: c2 :: c3 :: rest3 =>
        (if b = 0xF0 then 0x90 ≤ c1 && c1 ≤ 0xBF
         else if b = 0xF4 then 0x80 ≤ c1 && c1 ≤ 0x8F
         else isCont c1) && isCont c2 && isCont c3 && utf8Valid rest3
      | _ => false
    else false

/-- The `finding` record of main.go.  The `Entropy float64` field is
omitted: it is never read by the masking engine and floating point is out
of scope of this embedding. -/
structure finding where
  RuleID : List Nat
  StartLine : Int
  EndLine : Int
  Match : List Nat
  Secret : List Nat
  File : List Nat
  Fingerprint : List Nat
deriving DecidableEq, Repr

/-- Appends a finding to the bucket of `key` in an association list,
updating the first entry with that key or appending a new bucket at the
end; this models insertion into the Go map `fileFindings` (content only:
Go map iteration order is arbitrary and not modelled). -/
def addToGroup : List (List Nat × List finding) → List Nat → finding →
    List (List Nat × List finding)
  | [], key, f => [(key, [f])]
  | (k, fs) :: rest, key, f =>
    if k = key then (k, fs ++ [f]) :: rest
    else (k, fs) :: addToGroup rest key f

/-- The grouping loop of `NewMasker` (mask.go lines 38-53): for each
finding, the path key is `strings.NewReplacer(sourceDir, targetDir)`
applied to `f.File`, and the finding is appended to that bucket.  The
finding record itself is stored unchanged (its `File` field is not
rewritten). -/
def NewMasker (sourceDir targetDir : List Nat) (findings : List finding) :
    List (List Nat × List finding) :=
  findings.foldl
    (fun acc f => addToGroup acc (replaceAll sourceDir targetDir f.File) f) []

/-- Reads the bucket of `key` from a grouping (empty list when absent). -/
def lookupGroup (g : List (List Nat × List finding)) (key : List Nat) :
    List finding :=
  match g with
  | [] => []
  | (k, fs) :: rest => if k = key then fs else lookupGroup rest key

/-- The two handler shapes `ParseFileType` can select. -/
inductive handlerChoice where
  | binary
  | text (buf : List Nat)
deriving DecidableEq, Repr

/-- The sentinel rule identifier checked by `ParseFileType`. -/
def pkcs12Rule : List Nat := bts "pkcs12-file"

/-- `ParseFileType` (mask.go lines 147-180).  The outcome of the one
`os.ReadFile` call the function may perform is passed in as `readRes`
(read error or content bytes).  Returns `.error` for a read failure
(no handler, caller records the file as failed), `.ok none` for an empty
file (no-op), and `.ok (some h)` for the selected handler.  The pkcs12
check runs before the read, so a pkcs12 file is classified binary whatever
`readRes` is. -/
def ParseFileType (fileFinding : List finding)
    (readRes : Except Unit (List Nat)) : Except Unit (Option handlerChoice) :=
  if fileFinding.any (fun f => f.RuleID == pkcs12Rule) then
    .ok (some .binary)
  else
    match readRes with
    | .error e => .error e
    | .ok buf =>
      if buf.length = 0 then .ok none
      else if !utf8Valid buf then .ok (some .binary)
      else .ok (some (.text buf))

/-- Per-file outcome of the dispatcher body of `ProcessWithContext`
(mask.go lines 91-125), for one file group, with the cancellation branch
not taken (no cancellation is raised in the properties below). -/
inductive dispatchOutcome where
  | skippedNoFindings
  | parseError
  | skippedEmpty
  | runBinary
  | runText (buf : List Nat)
deriving DecidableEq, Repr

/-- The goroutine body of `ProcessWithContext` for one (path, findings)
pair: an empty finding list is skipped before `ParseFileType` is called
(mask.go lines 100-104); otherwise the classification decides which
handler runs. -/
def dispatchFile (fileFinding : List finding)
    (readRes : Except Unit (List Nat)) : dispatchOutcome :=
  if fileFinding.length = 0 then .skippedNoFindings
  else
    match ParseFileType fileFinding readRes with
    | .error _ => .parseError
    | .ok none => .skippedEmpty
    | .ok (some .binary) => .runBinary
    | .ok (some (.text buf)) => .runText buf

/-- A file system state: path (byte list) to file content (byte list). -/
def FS : Type := List Nat → Option (List Nat)

/-- Overwrites (or creates) the file at `p` with content `v`, as
`os.Create` plus write, or `os.WriteFile` (permission bits are not
modelled). -/
def fsSet (fs : FS) (p v : List Nat) : FS :=
  fun q => if q = p then some v else fs q

/-- Go `os.Remove`: fails when no file exists at `p`, otherwise deletes
the entry. -/
def fsRemove (fs : FS) (p : List Nat) : Option FS :=
  match fs p with
  | none => none
  | some _ => some (fun q => if q = p then none else fs q)

/-- `RecreateFile` (mask.go lines 183-203): deletes the file at `path`
(an error if it is absent), creates it afresh, and writes
`strings.Join(lines, "\n")` when `lines` is nonempty; an empty `lines`
leaves the freshly created file empty, and `joinNl [] = []` gives the same
content. -/
def RecreateFile (fs : FS) (path : List Nat) (lines : List (List Nat)) :
    Option FS :=
  match fsRemove fs path with
  | none => none
  | some fs1 => some (fsSet fs1 path (joinNl lines))

/-- The placeholder body written by `HandleBinary`: the format string
`placeholderPrefix` of mask.go with its trailing `%s` verb filled by the
original path. -/
def placeholderContent (path : List Nat) : List Nat :=
  bts "This file was deleted because it matched the pkcs12-file rule. Original file: " ++ path

/-- The sibling placeholder path chosen by `HandleBinary`:
`strings.TrimSuffix(path, ".p12") + ".txt"`. -/
def placeholderPath (path : List Nat) : List Nat :=
  trimSuffix path (bts ".p12") ++ bts ".txt"

/-- `HandleBinary` (mask.go lines 206-220): recreates `path` with empty
content, then writes the placeholder file with `os.WriteFile` (which
creates or truncates, so it succeeds whether or not the placeholder
already exists). -/
def HandleBinary (fs : FS) (path : List Nat) : Option FS :=
  match RecreateFile fs path [] with
  | none => none
  | some fs1 => some (fsSet fs1 (placeholderPath path) (placeholderContent path))

/-- A work chunk of `HandleText` (the `chunk` struct of mask.go):
0-based start and end line of the finding and the lines it covers,
taken from the original line list. -/
structure chunk where
  startLine : Int
  endLine : Int
  matchStr : List Nat
  content : List (List Nat)
deriving DecidableEq, Repr

/-- A processed chunk (the `result` struct of mask.go). -/
structure chunkResult where
  startLine : Int
  endLine : Int
  content : List (List Nat)
deriving DecidableEq, Repr

/-- Go slice expression `l[a:b]` on a slice of length `len l`: defined
when `0 ≤ a ≤ b ≤ len l`, a runtime panic (`none`) otherwise. -/
def goSlice (l : List (List Nat)) (a b : Int) : Option (List (List Nat)) :=
  if 0 ≤ a ∧ a ≤ b ∧ b ≤ (l.length : Int) then
    some ((l.take b.toNat).drop a.toNat)
  else none

/-- The chunk-creation loop of `HandleText` (mask.go lines 237-247): for
each finding, `lines[startLine-1 : endLine]` is sliced from the original
line list; a slice out of range is a Go panic (`none`). -/
def makeChunks (lines : List (List Nat)) : List finding → Option (List chunk)
  | [] => some []
  | f :: fs =>
    match goSlice lines (f.StartLine - 1) f.EndLine with
    | none => none
    | some c =>
      match makeChunks lines fs with
      | none => none
      | some rest =>
        some ({ startLine := f.StartLine - 1, endLine := f.EndLine - 1,
                matchStr := f.Match, content := c } :: rest)

/-- The worker body of `HandleText` (mask.go lines 257-274): joins the
chunk lines with LF, replaces every occurrence of the match by the mask
`"***[REDACTED]***"`, and splits back on LF.  A pure function of the
chunk. -/
def processChunk (c : chunk) : chunkResult :=
  { startLine := c.startLine, endLine := c.endLine,
    content := splitNl (replaceAll c.matchStr (bts "***[REDACTED]***")
      (joinNl c.content)) }

/-- One step of the collection loop of `HandleText` (mask.go line 294):
`lines = append(lines[:r.startLine], append(r.content, lines[r.endLine:]...)...)`.
Each of the two slice expressions panics (`none`) when its bound is
outside `0..len lines`. -/
def spliceResult (lines : List (List Nat)) (r : chunkResult) :
    Option (List (List Nat)) :=
  match goSlice lines 0 r.startLine with
  | none => none
  | some front =>
    match goSlice lines r.endLine (lines.length : Int) with
    | none => none
    | some back => some (front ++ r.content ++ back)

/-- The collection loop of `HandleText` (mask.go lines 285-295), folding
the splice step over the results in the order they are received. -/
def collectAll (lines : List (List Nat)) : List chunkResult →
    Option (List (List Nat))
  | [] => some lines
  | r :: rs =>
    match spliceResult lines r with
    | none => none
    | some l1 => collectAll l1 rs

/-- Outcome of one `HandleText` run: either a Go panic, or the path and
joined content handed to `RecreateFile` for write-back. -/
inductive HTOut where
  | panic
  | ok (path : List Nat) (content : List Nat)
deriving DecidableEq, Repr

/-- `HandleText` (mask.go lines 223-303), modelled with the one scheduling
choice the concurrent code leaves open made explicit: `order` lists the
positions (indices into the chunk list) in which the per-chunk results
come off the result channel.  Chunk creation happens first and in finding
order; each chunk is processed by the pure worker function; the collection
loop folds the splice step in channel order; finally the write-back path
is `findings[0].File` — an index-out-of-range panic when `findings` is
empty.  The returned `.ok` carries the write-back path and the joined
content passed to `RecreateFile` (mask.go line 298). -/
def HandleText (buf : List Nat) (findings : List finding)
    (order : List Nat) : HTOut :=
  let lines := splitNl buf
  match makeChunks lines findings with
  | none => .panic
  | some chunks =>
    let results := chunks.map processChunk
    let ordered := order.filterMap (fun i => results[i]?)
    match collectAll lines ordered with
    | none => .panic
    | some finalLines =>
      match findings with
      | [] => .panic
      | f0 :: _ => .ok f0.File (joinNl finalLines)

/-- Modelled from the spec: the line split the Text Handler would perform
under the specified configured newline sequence at its default, the
literal two-byte CRLF sequence (bytes 13, 10).  Used only to compare the
specified behaviour with the LF split the code performs. -/
def splitCrlfSpec : List Nat → List (List Nat)
  | [] => [[]]
  | 13 :: 10 :: rest => [] :: splitCrlfSpec rest
  | b :: rest =>
    match splitCrlfSpec rest with
    | [] => [[b]]
    | l :: ls => (b :: l) :: ls

/-- A finding carrying the sentinel pkcs12 rule, the shape produced for
keystore files in the gitleaks report (compare mask_test.go). -/
def pkF : finding :=
  { RuleID := bts "pkcs12-file", StartLine := 0, EndLine := 0, Match := [],
    Secret := [], File := bts "f.p12", Fingerprint := [] }

/-- A finding with an ordinary (non-sentinel) rule identifier. -/
def plainF : finding :=
  { RuleID := bts "api-key", StartLine := 1, EndLine := 1, Match := bts "k",
    Secret := [], File := bts "f.txt", Fingerprint := [] }

/-- Concrete finding whose `File` lies under the source root `/src`. -/
def fC1 : finding :=
  { RuleID := bts "api-key", StartLine := 1, EndLine := 1,
    Match := bts "secret", Secret := [], File := bts "/src/a.txt",
    Fingerprint := [] }

/-- The finding of concrete scenario 1 of the spec (also the test case
named Single line mask of mask_test.go). -/
def fC2 : finding :=
  { RuleID := bts "api-key", StartLine := 2, EndLine := 2,
    Match := bts "secret123", Secret := [], File := bts "t1.txt",
    Fingerprint := [] }

/-- A finding whose `endLine` exceeds the line count of a two-line file. -/
def fC3a : finding :=
  { RuleID := bts "api-key", StartLine := 2, EndLine := 5,
    Match := bts "x", Secret := [], File := bts "t3.txt", Fingerprint := [] }

/-- A finding with `startLine` below 1. -/
def fC3b : finding :=
  { RuleID := bts "api-key", StartLine := 0, EndLine := 1,
    Match := bts "x", Secret := [], File := bts "t3.txt", Fingerprint := [] }

/-- First of two single-line findings in one file (line 1, match `X`). -/
def fC5a : finding :=
  { RuleID := bts "api-key", StartLine := 1, EndLine := 1,
    Match := bts "X", Secret := [], File := bts "t5.txt", Fingerprint := [] }

/-- Second of two single-line findings in one file (line 2, match `Y`). -/
def fC5b : finding :=
  { RuleID := bts "api-key", StartLine := 2, EndLine := 2,
    Match := bts "Y", Secret := [], File := bts "t5.txt", Fingerprint := [] }

/-- A finding whose `File` contains the source-root string both as its
leading segment and again in the middle of the path. -/
def fC6 : finding :=
  { RuleID := bts "api-key", StartLine := 1, EndLine := 1, Match := bts "k",
    Secret := [], File := bts "src/a/src/b.txt", Fingerprint := [] }

/-- A finding whose match occurs nowhere in its file, so that text
handling performs no replacement. -/
def fC9 : finding :=
  { RuleID := bts "api-key", StartLine := 1, EndLine := 1,
    Match := bts "zzz", Secret := [], File := bts "t9.txt",
    Fingerprint := [] }

/-- A one-file file system holding the keystore file `a.p12`. -/
def exFs : FS := fun q => if q = bts "a.p12" then some (bts "junk") else none

/-- The file system state after `HandleBinary` has run once on `a.p12` in
`exFs`: the keystore emptied and the placeholder written. -/
def exFs1 : FS :=
  fsSet (fsSet (fun q => if q = bts "a.p12" then none else exFs q)
      (bts "a.p12") [])
    (bts "a.txt") (placeholderContent (bts "a.p12"))

/-! Helper lemmas shared by the claim theorems. -/

theorem splitNl_ne_nil (s : List Nat) : splitNl s ≠ [] := by
  rw [splitNl.eq_def]
  split
  · simp
  · simp
  · split <;> simp

theorem joinNl_splitNl (s : List Nat) : joinNl (splitNl s) = s := by
  induction s with
  | nil => rfl
  | cons b rest ih =>
    by_cases hb : b = 10
    · subst hb
      rw [splitNl.eq_2]
      rcases h : splitNl rest with _ | ⟨l, ls⟩
      · exact absurd h (splitNl_ne_nil rest)
      · rw [h] at ih
        simpa [joinNl] using ih
    · rw [splitNl.eq_3 b rest (fun h10 => hb h10)]
      rcases h : splitNl rest with _ | ⟨l, ls⟩
      · exact absurd h (splitNl_ne_nil rest)
      · rw [h] at ih
        show joinNl ((b :: l) :: ls) = b :: rest
        cases ls with
        | nil =>
          simp only [joinNl] at ih ⊢
          rw [ih]
        | cons l2 ls2 =>
          simp only [joinNl] at ih ⊢
          rw [List.cons_append, ih]

theorem splitNl_of_not_mem (a : List Nat) (ha : 10 ∉ a) : splitNl a = [a] := by
  induction a with
  | nil => rfl
  | cons b rest ih =>
    have hb : b ≠ 10 := fun h => ha (h ▸ List.mem_cons_self b rest)
    have hrest : 10 ∉ rest := fun h => ha (List.mem_cons_of_mem b h)
    rw [splitNl.eq_3 b rest (fun h10 => hb h10), ih hrest]

theorem splitNl_append (a b : List Nat) (ha : 10 ∉ a) :
    splitNl (a ++ 10 :: b) = a :: splitNl b := by
  induction a with
  | nil => simpa using splitNl.eq_2 b
  | cons c a2 ih =>
    have hc : c ≠ 10 := fun h => ha (h ▸ List.mem_cons_self c a2)
    have ha2 : 10 ∉ a2 := fun h => ha (List.mem_cons_of_mem c h)
    rw [List.cons_append, splitNl.eq_3 c (a2 ++ 10 :: b) (fun h10 => hc h10),
      ih ha2]

theorem joinNl_cons_of_ne_nil (x : List Nat) (xs : List (List Nat))
    (hxs : xs ≠ []) : joinNl (x :: xs) = x ++ 10 :: joinNl xs := by
  cases xs with
  | nil => exact absurd rfl hxs
  | cons y ys => rfl

theorem lookupGroup_addToGroup (acc : List (List Nat × List finding))
    (key k : List Nat) (f : finding) :
    lookupGroup (addToGroup acc key f) k =
      if k = key then lookupGroup acc k ++ [f] else lookupGroup acc k := by
  induction acc with
  | nil =>
    by_cases hk : k = key
    · subst hk; simp [addToGroup, lookupGroup]
    · simp [addToGroup, lookupGroup, hk, Ne.symm hk]
  | cons p rest ih =>
    obtain ⟨k0, fs0⟩ := p
    by_cases h0 : k0 = key
    · subst h0
      by_cases hk : k = k0
      · subst hk; simp [addToGroup, lookupGroup]
      · simp [addToGroup, lookupGroup, hk, Ne.symm hk]
    · by_cases hk : k0 = k
      · subst hk
        simp [addToGroup, lookupGroup, h0, Ne.symm h0]
      · simp [addToGroup, lookupGroup, h0, hk, ih]

theorem lookupGroup_foldl (src tgt : List Nat) (fs : List finding)
    (acc : List (List Nat × List finding)) (key : List Nat) :
    lookupGroup (fs.foldl
        (fun a f => addToGroup a (replaceAll src tgt f.File) f) acc) key =
      lookupGroup acc key ++
        (fs.filter (fun f => replaceAll src tgt f.File == key)) := by
  induction fs generalizing acc with
  | nil => simp
  | cons f fs2 ih =>
    rw [List.foldl_cons, ih, lookupGroup_addToGroup]
    by_cases hk : key = replaceAll src tgt f.File
    · simp [List.filter_cons, hk, List.append_assoc]
    · have hne : (replaceAll src tgt f.File == key) = false := by
        simp [Ne.symm hk]
      simp [List.filter_cons, hk, hne]

theorem leadsWith_head (a : Nat) (as t : List Nat)
    (h : leadsWith (a :: as) t = true) : ∃ ts, t = a :: ts := by
  cases t with
  | nil => simp [leadsWith] at h
  | cons b bs =>
    simp only [leadsWith, Bool.and_eq_true, beq_iff_eq] at h
    exact ⟨bs, by rw [h.1]⟩

theorem placeholderPath_ne (p : List Nat) : placeholderPath p ≠ p := by
  intro hEq
  unfold placeholderPath trimSuffix at hEq
  by_cases hSuf : endsWithL p (bts ".p12") = true
  · rw [if_pos hSuf] at hEq
    obtain ⟨ts, hts⟩ := leadsWith_head 50 [49, 112, 46] p.reverse
      (by simpa [endsWithL, bts] using hSuf)
    have hrev := congrArg List.reverse hEq
    rw [List.reverse_append, hts] at hrev
    simp [bts] at hrev
  · rw [if_neg hSuf] at hEq
    have hlen := congrArg List.length hEq
    simp [bts] at hlen

/-! Claim theorems. -/

/-- C4: classification follows the fixed order of ParseFileType — a
pkcs12 finding forces binary handling without any content inspection
(whatever the read would return), otherwise a read failure is returned as
a classification error with no handler selected, zero-length content is a
no-op success, content failing strict UTF-8 validation goes to the binary
handler, and all other content goes to the text handler. -/
theorem c4_ParseFileType_classification_order :
    ∀ (fs : List finding) (rr : Except Unit (List Nat)) (buf : List Nat),
      ((fs.any fun f => f.RuleID == pkcs12Rule) = true →
        ParseFileType fs rr = .ok (some .binary))
    ∧ ((fs.any fun f => f.RuleID == pkcs12Rule) = false →
        ParseFileType fs (.error ()) = .error ()
      ∧ ParseFileType fs (.ok []) = .ok none
      ∧ (utf8Valid buf = false → buf ≠ [] →
          ParseFileType fs (.ok buf) = .ok (some .binary))
      ∧ (utf8Valid buf = true → buf ≠ [] →
          ParseFileType fs (.ok buf) = .ok (some (.text buf)))) := by
  intro fs rr buf
  constructor
  · intro hpk
    unfold ParseFileType
    rw [if_pos hpk]
  · intro hpk
    refine ⟨?_, ?_, ?_, ?_⟩
    · unfold ParseFileType
      rw [if_neg (by simp [hpk])]
    · unfold ParseFileType
      rw [if_neg (by simp [hpk])]
      simp
    · intro hv hne
      unfold ParseFileType
      rw [if_neg (by simp [hpk])]
      simp [List.length_eq_zero, hne, hv]
    · intro hv hne
      unfold ParseFileType
      rw [if_neg (by simp [hpk])]
      simp [List.length_eq_zero, hne, hv]

/-- Witness for C4: each classification branch observed at a concrete
input, via the theorem. -/
theorem c4_classification_witness :
    ParseFileType [pkF] (.error ()) = .ok (some .binary)
    ∧ ParseFileType [plainF] (.error ()) = .error ()
    ∧ ParseFileType [plainF] (.ok []) = .ok none
    ∧ ParseFileType [plainF] (.ok [255]) = .ok (some .binary)
    ∧ ParseFileType [plainF] (.ok (bts "hi")) = .ok (some (.text (bts "hi"))) :=
  ⟨(c4_ParseFileType_classification_order [pkF] (.error ()) []).1 (by decide),
   ((c4_ParseFileType_classification_order [plainF] (.error ()) []).2
      (by decide)).1,
   ((c4_ParseFileType_classification_order [plainF] (.ok []) []).2
      (by decide)).2.1,
   ((c4_ParseFileType_classification_order [plainF] (.ok [255]) [255]).2
      (by decide)).2.2.1 (by decide) (by decide),
   ((c4_ParseFileType_classification_order [plainF] (.ok (bts "hi"))
      (bts "hi")).2 (by decide)).2.2.2 (by decide) (by decide)⟩

/-- C10: HandleText called with an empty findings list reaches the
index-out-of-range access findings[0].File and panics; the dispatcher
skips a file group with no findings before classification, so that branch
is unreachable through the dispatcher, which only runs the text handler
for a nonempty finding list. -/
theorem c10_empty_findings_guard :
    (∀ buf order : List Nat, HandleText buf [] order = .panic)
    ∧ (∀ rr : Except Unit (List Nat), dispatchFile [] rr = .skippedNoFindings)
    ∧ (∀ (fs : List finding) (rr : Except Unit (List Nat)) (buf : List Nat),
        dispatchFile fs rr = .runText buf → fs ≠ []) := by
  refine ⟨?_, ?_, ?_⟩
  · intro buf order
    simp only [HandleText, makeChunks, collectAll]
    split <;> rfl
  · intro rr
    rfl
  · intro fs rr buf hrun
    intro hnil
    subst hnil
    exact absurd hrun (by simp [dispatchFile])

/-- Witness for C10: the guard and the panic observed at concrete inputs,
via the theorem. -/
theorem c10_guard_witness :
    HandleText (bts "x") [] [] = .panic ∧ ([plainF] : List finding) ≠ [] :=
  ⟨c10_empty_findings_guard.1 (bts "x") [],
   c10_empty_findings_guard.2.2 [plainF] (.ok (bts "x")) (bts "x")
     (by decide)⟩

/-- C8: HandleBinary is idempotent — when a first run on any file system
succeeds, a second run on the resulting state (file already emptied,
placeholder already present) also succeeds and leaves the state
unchanged. -/
theorem c8_HandleBinary_idempotent (fs : FS) (p : List Nat) (fs1 : FS)
    (h : HandleBinary fs p = some fs1) : HandleBinary fs1 p = some fs1 := by
  have hne : placeholderPath p ≠ p := placeholderPath_ne p
  unfold HandleBinary RecreateFile fsRemove at h ⊢
  cases hc : fs p with
  | none => rw [hc] at h; exact absurd h (by simp)
  | some c =>
    rw [hc] at h
    have h1 : fsSet (fsSet (fun q => if q = p then none else fs q) p
          (joinNl []))
        (placeholderPath p) (placeholderContent p) = fs1 := Option.some.inj h
    have hp1 : fs1 p = some [] := by
      rw [← h1]
      simp [fsSet, Ne.symm hne, joinNl]
    rw [hp1]
    refine congrArg some ?_
    funext q
    by_cases hq1 : q = placeholderPath p
    · subst hq1
      rw [← h1]
      simp [fsSet]
    · by_cases hq2 : q = p
      · subst hq2
        simp [fsSet, Ne.symm hne, hp1, joinNl]
      · rw [← h1]
        simp [fsSet, hq1, hq2]

/-- Witness for C8: a second run on the post-state of a concrete first run
returns the same state, via the theorem (the first-run hypothesis holds
definitionally). -/
theorem c8_idempotence_witness :
    HandleBinary exFs1 (bts "a.p12") = some exFs1 :=
  c8_HandleBinary_idempotent exFs (bts "a.p12") exFs1 rfl

/-- C6 (counterexample): the grouping rewrite is not a prefix-only
substitution — with source root `src` and target root `tgt`, the path
`src/a/src/b.txt` is bucketed under `tgt/a/tgt/b.txt` (both occurrences
replaced), not under `tgt/a/src/b.txt` as the claim states. -/
theorem c6_rewrite_hits_every_occurrence :
    lookupGroup (NewMasker (bts "src") (bts "tgt") [fC6])
        (bts "tgt/a/src/b.txt") = []
    ∧ lookupGroup (NewMasker (bts "src") (bts "tgt") [fC6])
        (bts "tgt/a/tgt/b.txt") = [fC6] := by
  exact ⟨by decide, by decide⟩

/-- C6 (amended): the grouping stage rewrites each finding's file value by
replacing every leftmost non-overlapping occurrence of the source-root
string with the target-root string, and the bucket of any key holds
exactly the findings whose rewritten path equals that key, in input
order. -/
theorem c6_buckets_keyed_by_rewritten_path (src tgt : List Nat)
    (fs : List finding) (key : List Nat) :
    lookupGroup (NewMasker src tgt fs) key =
      fs.filter (fun f => replaceAll src tgt f.File == key) := by
  have h := lookupGroup_foldl src tgt fs [] key
  simpa [NewMasker, lookupGroup] using h

/-- C7 (counterexample): the Text Handler splits on the one-byte LF
sequence and rejoins with LF, not with the configured-default two-byte
CRLF the claim states — on `a\r\nb` the code split keeps the CR attached
to the first line, unlike the CRLF split the spec prescribes, and the
rejoin inserts a bare LF. -/
theorem c7_newline_is_not_crlf :
    splitNl (bts "a\r\nb") = [bts "a\r", bts "b"]
    ∧ splitCrlfSpec (bts "a\r\nb") = [bts "a", bts "b"]
    ∧ joinNl [bts "a", bts "b"] = bts "a\nb"
    ∧ ([bts "a\r", bts "b"] : List (List Nat)) ≠ [bts "a", bts "b"]
    ∧ bts "a\nb" ≠ bts "a\r\nb" := by
  exact ⟨by decide, by decide, by decide, by decide, by decide⟩

/-- C7 (amended): the Text Handler splits and rejoins with the hard-coded
one-byte LF sequence (byte 10) in both directions — exactly the LF bytes
separate lines, a LF-free buffer is a single line, and rejoining places a
single LF byte between adjacent lines; no newline configuration exists in
this version of the code. -/
theorem c7_newline_is_hardcoded_lf :
    (∀ a b : List Nat, 10 ∉ a → splitNl (a ++ 10 :: b) = a :: splitNl b)
    ∧ (∀ a : List Nat, 10 ∉ a → splitNl a = [a])
    ∧ (∀ (x : List Nat) (xs : List (List Nat)), xs ≠ [] →
        joinNl (x :: xs) = x ++ 10 :: joinNl xs) :=
  ⟨splitNl_append, splitNl_of_not_mem, joinNl_cons_of_ne_nil⟩

/-- Witness for C7: the LF-separator laws observed at concrete inputs,
via the theorem. -/
theorem c7_newline_witness :
    splitNl (bts "a\r" ++ 10 :: bts "b") = bts "a\r" :: splitNl (bts "b")
    ∧ splitNl (bts "b") = [bts "b"]
    ∧ joinNl [bts "a\r", bts "b"] = bts "a\r" ++ 10 :: joinNl [bts "b"] :=
  ⟨c7_newline_is_hardcoded_lf.1 (bts "a\r") (bts "b") (by decide),
   c7_newline_is_hardcoded_lf.2.1 (bts "b") (by decide),
   c7_newline_is_hardcoded_lf.2.2 (bts "a\r") [bts "b"] (by decide)⟩

/-- C9 (amended): splitting a buffer by the LF sequence the Text Handler
uses and rejoining with that same sequence, as the write-back path does,
reproduces the original buffer exactly.  (The further inference of the
claim — that a run in which no replacement occurs writes the file back
byte-identical — fails on the code; see the counterexample.) -/
theorem c9_split_join_round_trip (buf : List Nat) :
    joinNl (splitNl buf) = buf :=
  joinNl_splitNl buf

/-- C9 (counterexample): a run of the text handler in which the match
occurs nowhere, so no replacement happens, still does not write the file
back byte-identical: the reassembly step duplicates the last covered line,
turning `a\r\nb` into `a\r\na\r\nb`. -/
theorem c9_noop_run_not_byte_identical :
    HandleText (bts "a\r\nb") [fC9] [0]
      = .ok (bts "t9.txt") (bts "a\r\na\r\nb")
    ∧ bts "a\r\na\r\nb" ≠ bts "a\r\nb" := by
  exact ⟨by decide, by decide⟩

/-- C1: the grouping stage buckets a finding whose file is
`/src/a.txt` under the rewritten target path `/tgt/a.txt`, yet HandleText
writes its rewritten content back to `findings[0].File`, the original
value `/src/a.txt`, which lies under the source root — contradicting the
claim that the write-back path is the rewritten target-tree path and that
the source root is never written. -/
theorem c1_HandleText_writes_to_original_source_path :
    NewMasker (bts "/src") (bts "/tgt") [fC1] = [(bts "/tgt/a.txt", [fC1])]
    ∧ HandleText (bts "x secret") [fC1] [0]
        = .ok (bts "/src/a.txt") (bts "x ***[REDACTED]***\nx secret")
    ∧ leadsWith (bts "/src") (bts "/src/a.txt") = true
    ∧ bts "/src/a.txt" ≠ bts "/tgt/a.txt" := by
  exact ⟨by decide, by decide, by decide, by decide⟩

/-- C2: on the input of concrete scenario 1, HandleText does not produce
the specified output — the reassembly step `lines[:start] ++ newChunk ++
lines[end:]` re-includes the original line at index `end`, so the written
content contains the masked line followed by a duplicate of the original
line that still holds `secret123`. -/
theorem c2_scenario1_output_duplicates_matched_line :
    HandleText (bts "line1\r\nline2 secret123 line2\r\nline3") [fC2] [0]
      = .ok (bts "t1.txt")
          (bts "line1\r\nline2 ***[REDACTED]*** line2\r\nline2 secret123 line2\r\nline3")
    ∧ bts "line1\r\nline2 ***[REDACTED]*** line2\r\nline2 secret123 line2\r\nline3"
        ≠ bts "line1\r\nline2 ***[REDACTED]*** line2\r\nline3" := by
  exact ⟨by decide, by decide⟩

/-- C3: a finding whose line span is out of bounds for the file (endLine
past the last line, or startLine below 1) makes the chunk slice
`lines[startLine-1 : endLine]` panic; there is no recover in mask.go so
the goroutine panic aborts the whole run instead of being recorded as a
per-file failure. -/
theorem c3_out_of_bounds_line_span_panics :
    HandleText (bts "a\nb") [fC3a] [0] = .panic
    ∧ HandleText (bts "a\nb") [fC3b] [0] = .panic := by
  exact ⟨by decide, by decide⟩

/-- C5: the final content of HandleText depends on the order in which the
per-chunk results are collected — collecting the two chunks of the same
file in the two possible channel orders yields two different byte
contents, refuting the two-run determinism the claim states. -/
theorem c5_collection_order_changes_final_content :
    HandleText (bts "a X\nb Y\nc") [fC5a, fC5b] [0, 1]
      = .ok (bts "t5.txt")
          (bts "a ***[REDACTED]***\nb ***[REDACTED]***\na X\nb Y\nc")
    ∧ HandleText (bts "a X\nb Y\nc") [fC5a, fC5b] [1, 0]
      = .ok (bts "t5.txt")
          (bts "a ***[REDACTED]***\na X\nb ***[REDACTED]***\nb Y\nc")
    ∧ bts "a ***[REDACTED]***\nb ***[REDACTED]***\na X\nb Y\nc"
        ≠ bts "a ***[REDACTED]***\na X\nb ***[REDACTED]***\nb Y\nc" := by
  exact ⟨by decide, by decide, by decide⟩

end CredentialMasker
